import Mathlib

/-!
Shallow embedding of the deep-filtering core of `survivorbat/gorm-deep-filtering`
(file `deep-filtering.go`): the relationship classifier `getNestedType`, the cached
reflection `getDatabaseFieldsOfType`, and the recursive filter compiler
`AddDeepFilters` / `addDeepFilter`.

Modelling decisions:
* Go `reflect.Type` values are modelled by the inductive `GoType` (struct, scalar,
  pointer, slice); `reflect.New(t).Interface()` is modelled by the type itself.
* `gorm.DB` query values are modelled by the `Query` AST: a model/table scope, a
  selected column, and a list of accumulated WHERE conditions (`Cond`).
  `db.Session(&gorm.Session{NewDB: true})` is `Query.fresh`.
* The process-wide reflection cache `cacheDatabaseMap` is threaded explicitly as a
  `Cache` value; `getDatabaseFieldsOfType` additionally reports (as a `Bool`) whether
  it took the reflection branch, so that cache hits are observable.
* Go's `(..., error)` return pairs are `Option Query × Option String`.
* Filter maps (`map[string]any`) are association lists `List (String × FilterVal)`;
  iteration order of the Go map is unspecified, the list order stands in for one
  chosen iteration order.
-/

namespace DeepGorm

/-- Go reflect types, as far as the deep-filtering code inspects them. -/
inductive GoType where
  | struct (name : String)
  | scalar (name : String)
  | ptr (elem : GoType)
  | slice (elem : GoType)
deriving DecidableEq, Repr

/-- The `reflect.Kind`s that the code distinguishes. -/
inductive GoKind where
  | kstruct
  | kslice
  | kptr
  | kother
deriving DecidableEq, Repr

def GoType.kind : GoType → GoKind
  | .struct _ => .kstruct
  | .scalar _ => .kother
  | .ptr _ => .kptr
  | .slice _ => .kslice

/-- `reflect.Type.Name()`: named types report their name, pointers and slices report "". -/
def GoType.name : GoType → String
  | .struct n => n
  | .scalar n => n
  | .ptr _ => ""
  | .slice _ => ""

/-- `ensureConcrete`: dereference pointers until the value is not a pointer. -/
def ensureConcrete : GoType → GoType
  | .ptr t => ensureConcrete t
  | .struct n => .struct n
  | .scalar n => .scalar n
  | .slice t => .slice t

theorem sizeOf_ensureConcrete_le (t : GoType) : sizeOf (ensureConcrete t) ≤ sizeOf t := by
  induction t with
  | ptr t ih => simp only [ensureConcrete, GoType.ptr.sizeOf_spec]; omega
  | struct n => simp [ensureConcrete]
  | scalar n => simp [ensureConcrete]
  | slice t => simp [ensureConcrete]

/-- `ensureNotASlice`: after `ensureConcrete`, unwrap slices recursively. -/
def ensureNotASlice (value : GoType) : GoType :=
  match h : ensureConcrete value with
  | .slice e => ensureNotASlice e
  | .struct n => .struct n
  | .scalar n => .scalar n
  | .ptr t => .ptr t
termination_by sizeOf value
decreasing_by
  have hle := sizeOf_ensureConcrete_le value
  rw [h] at hle
  simp only [GoType.slice.sizeOf_spec] at hle
  omega

/-- `getInstanceAndRelationOfField`: instantiate the field's element type and guess the
relation kind from the field's shape (struct ⇒ "oneToMany", slice ⇒ "manyToOne"). -/
def getInstanceAndRelationOfField (fieldType : GoType) : Option GoType × String :=
  let valueType := ensureConcrete fieldType
  match valueType with
  | .struct n => (some (.struct n), "oneToMany")
  | .slice e => (some (ensureNotASlice (.slice e)), "manyToOne")
  | _ => (none, "")

/-- The naming strategy (`schema.Namer`), reduced to the one method the code calls:
`ColumnName(table, name)`. -/
structure Namer where
  columnName : String → String → String

/-- One `*schema.Field` of a parsed gorm schema, reduced to what the code reads:
name, reflect type, the FOREIGNKEY / MANY2MANY tag settings, and the owning
schema's table (`dbField.Schema.Table`). -/
structure SchemaField where
  name : String
  fieldType : GoType
  tagForeignKey : Option String
  tagMany2Many : Option String
  schemaTable : String
deriving DecidableEq, Repr

/-- A parsed `*schema.Schema`. `primaryFieldDBName` is carried by gorm schemas but,
as the theorems below show, never consulted by the deep-filtering code. -/
structure Schema where
  table : String
  primaryFieldDBName : String
  modelType : GoType
  fieldsByName : List SchemaField
deriving DecidableEq, Repr

/-- `nestedType`: the per-field relation record built by `getNestedType`. -/
structure nestedType where
  fieldStructInstance : Option GoType
  fieldForeignKey : String := ""
  relationType : String
  manyToManyTable : String := ""
  destinationManyToManyForeignKey : String := ""
deriving DecidableEq, Repr

/-- `getNestedType`: classify one struct/slice field into a `nestedType` record. -/
def getNestedType (naming : Namer) (dbField : SchemaField) (ofType : GoType) :
    Except String nestedType :=
  let sr := getInstanceAndRelationOfField dbField.fieldType
  let result : nestedType := { fieldStructInstance := sr.1, relationType := sr.2 }
  match dbField.tagForeignKey with
  | some sourceForeignKey =>
      .ok { result with
              fieldForeignKey := naming.columnName dbField.schemaTable sourceForeignKey }
  | none =>
    match dbField.tagMany2Many with
    | none =>
        .error ("no 'foreignKey:...' or 'many2many:...' found in field " ++ dbField.name)
    | some manyToMany =>
        .ok { result with
                relationType := "manyToMany",
                manyToManyTable := manyToMany,
                fieldForeignKey :=
                  naming.columnName dbField.schemaTable
                    (ensureNotASlice dbField.fieldType).name ++ "_id",
                destinationManyToManyForeignKey :=
                  naming.columnName dbField.schemaTable ofType.name ++ "_id" }

/-- Association-list lookup, modelling Go map indexing `m[k]`. -/
def lookupAL {α : Type} : List (String × α) → String → Option α
  | [], _ => none
  | (k', v) :: rest, k => if k' = k then some v else lookupAL rest k

/-- Association-list insert with overwrite, modelling Go map assignment `m[k] = v`. -/
def insertAL {α : Type} : List (String × α) → String → α → List (String × α)
  | [], k, v => [(k, v)]
  | (k', v') :: rest, k, v =>
      if k' = k then (k, v) :: rest else (k', v') :: insertAL rest k v

/-- The cached map from column name to relation record for one entity type. -/
abbrev RelMap := List (String × nestedType)

/-- The process-wide `cacheDatabaseMap`, keyed by entity type name. -/
abbrev Cache := List (String × RelMap)

/-- The reflection loop body of `getDatabaseFieldsOfType`: walk the schema's fields,
skip non-struct/non-slice fields, skip fields `getNestedType` rejects, store the
rest under their resolved column name. -/
def reflectFieldList (naming : Namer) (table : String) (ofType : GoType) :
    List SchemaField → RelMap → RelMap
  | [], acc => acc
  | fieldInfo :: rest, acc =>
      if (ensureConcrete fieldInfo.fieldType).kind ≠ .kstruct ∧
         (ensureConcrete fieldInfo.fieldType).kind ≠ .kslice then
        reflectFieldList naming table ofType rest acc
      else
        match getNestedType naming fieldInfo ofType with
        | .error _ => reflectFieldList naming table ofType rest acc
        | .ok nestedTypeResult =>
            reflectFieldList naming table ofType rest
              (insertAL acc (naming.columnName table fieldInfo.name) nestedTypeResult)

/-- `getDatabaseFieldsOfType`, with the global cache threaded explicitly.
The trailing `Bool` records whether the reflection branch ran (`true` on a cache
miss, `false` on a hit); the Go function's observable return value is the first
component. -/
def getDatabaseFieldsOfType (naming : Namer) (schemaInfo : Schema) (cache : Cache) :
    RelMap × Cache × Bool :=
  let reflectType := ensureConcrete schemaInfo.modelType
  let reflectTypeName := reflectType.name
  match lookupAL cache reflectTypeName with
  | some dbFields => (dbFields, cache, false)
  | none =>
      let resultNestedType :=
        reflectFieldList naming schemaInfo.table reflectType schemaInfo.fieldsByName []
      (resultNestedType, insertAL cache reflectTypeName resultNestedType, true)

/-- Scalar filter values (the "simple types" the code leaves to gorm). -/
inductive Scalar where
  | str (s : String)
  | int (n : Int)
  | bool (b : Bool)
deriving DecidableEq, Repr

/-- One value of a `map[string]any` filter: either a scalar or a nested filter map. -/
inductive FilterVal where
  | scalar (v : Scalar)
  | fmap (m : List (String × FilterVal))

/-- A `map[string]any` filter, as an association list in iteration order. -/
abbrev FilterMap := List (String × FilterVal)

mutual

/-- Conditions accumulated on a `gorm.DB` by `.Where` calls. -/
inductive Cond where
  | raw (sql : String) (arg : Query)
  | simple (m : List (String × Scalar))
  | sub (q : Option Query)

/-- A `gorm.DB` query under construction: model scope, table scope, selected
column, accumulated WHERE conditions. -/
inductive Query where
  | mk (model : Option GoType) (tbl : Option String) (sel : Option String)
       (conds : List Cond)

end

/-- `db.Session(&gorm.Session{NewDB: true})`: a fresh query scope with no
inherited model, table, selection or WHERE state. -/
def Query.fresh : Query := .mk none none none []

/-- `db.Where(cond)`: append one condition. -/
def Query.addWhere : Query → Cond → Query
  | .mk m t s cs, c => .mk m t s (cs ++ [c])

/-- `db.Model(instance)`. -/
def Query.withModel : Query → Option GoType → Query
  | .mk _ t s cs, m => .mk m t s cs

/-- `db.Table(name)`. -/
def Query.withTable : Query → String → Query
  | .mk m _ s cs, t => .mk m (some t) s cs

/-- `db.Select(column)`. -/
def Query.withSelect : Query → String → Query
  | .mk m t _ cs, s => .mk m t (some s) cs

/-- The schema environment standing in for `schema.Parse` (with its own cache):
a pure map from a model type to its parsed schema, `none` meaning a parse error. -/
abbrev SchemaEnv := GoType → Option Schema

/-- The accumulated `simpleFilter` map of `AddDeepFilters`. -/
abbrev SimpleMap := List (String × Scalar)

mutual

/-- Size of a filter value, for the termination measure of the compiler. -/
def valSize : FilterVal → Nat
  | .scalar _ => 1
  | .fmap m => 1 + mapSize m

/-- Size of a filter map (≥ 1 by construction). -/
def mapSize : List (String × FilterVal) → Nat
  | [] => 1
  | (_, v) :: rest => 1 + valSize v + mapSize rest

end

/-- Size of a list of filter maps. -/
def filtersSize : List FilterMap → Nat
  | [] => 0
  | m :: rest => mapSize m + filtersSize rest

theorem one_le_mapSize (m : List (String × FilterVal)) : 1 ≤ mapSize m := by
  cases m with
  | nil => simp [mapSize]
  | cons hd tl => obtain ⟨k, v⟩ := hd; simp only [mapSize]; omega

mutual

/-- `AddDeepFilters(db, objectType, filters...)`, with the reflection cache threaded.
Returns the `(query, error)` pair of the Go function plus the updated cache. -/
def AddDeepFilters (naming : Namer) (env : SchemaEnv) (db : Query)
    (objectType : Option GoType) (filters : List FilterMap) (cache : Cache) :
    (Option Query × Option String) × Cache :=
  match objectType.bind env with
  | none => ((none, some "unsupported data type"), cache)
  | some schemaInfo =>
    let r := getDatabaseFieldsOfType naming schemaInfo cache
    match processFilters naming env schemaInfo r.1 db [] filters r.2.1 with
    | (.error e, cache') => ((none, some e), cache')
    | (.ok (db', simpleFilter), cache') =>
        ((some (db'.addWhere (.simple simpleFilter)), none), cache')
termination_by 2 * filtersSize filters + 2
decreasing_by
  all_goals try simp only [filtersSize, mapSize, valSize]
  all_goals try omega
  all_goals (have hmp := one_le_mapSize ‹FilterMap›; omega)

/-- The outer loop of `AddDeepFilters` over the variadic `filters`. -/
def processFilters (naming : Namer) (env : SchemaEnv) (schemaInfo : Schema)
    (relInfo : RelMap) (db : Query) (simpleFilter : SimpleMap)
    (filters : List FilterMap) (cache : Cache) :
    Except String (Query × SimpleMap) × Cache :=
  match filters with
  | [] => (.ok (db, simpleFilter), cache)
  | filterObject :: rest =>
    match processEntries naming env schemaInfo relInfo db simpleFilter filterObject cache with
    | (.error e, cache') => (.error e, cache')
    | (.ok (db', simple'), cache') =>
        processFilters naming env schemaInfo relInfo db' simple' rest cache'
termination_by 2 * filtersSize filters + 1
decreasing_by
  all_goals try simp only [filtersSize, mapSize, valSize]
  all_goals try omega
  all_goals (have hmp := one_le_mapSize ‹FilterMap›; omega)

/-- The inner loop of `AddDeepFilters` over the key/value pairs of one filter map:
nested maps become relational sub-queries (or an unknown-field error), scalars are
accumulated into `simpleFilter` under the table-prefixed column name. -/
def processEntries (naming : Namer) (env : SchemaEnv) (schemaInfo : Schema)
    (relInfo : RelMap) (db : Query) (simpleFilter : SimpleMap)
    (filterObject : FilterMap) (cache : Cache) :
    Except String (Query × SimpleMap) × Cache :=
  match filterObject with
  | [] => (.ok (db, simpleFilter), cache)
  | (fieldName, givenFilter) :: rest =>
    match givenFilter with
    | .fmap nested =>
      match lookupAL relInfo fieldName with
      | none => (.error ("field '" ++ fieldName ++ "' does not exist"), cache)
      | some fieldInfo =>
        match addDeepFilter naming env db fieldInfo nested cache with
        | ((_, some e), cache') => (.error e, cache')
        | ((some query, none), cache') =>
            processEntries naming env schemaInfo relInfo query simpleFilter rest cache'
        | ((none, none), cache') =>
            -- unreachable: addDeepFilter never returns a nil query without an error
            processEntries naming env schemaInfo relInfo db simpleFilter rest cache'
    | .scalar v =>
        processEntries naming env schemaInfo relInfo db
          (insertAL simpleFilter (schemaInfo.table ++ "." ++ fieldName) v) rest cache
termination_by 2 * mapSize filterObject
decreasing_by
  all_goals try simp only [filtersSize, mapSize, valSize]
  all_goals try omega
  all_goals (have hmp := one_le_mapSize ‹FilterMap›; omega)

/-- `addDeepFilter(db, fieldInfo, filter)`: build the relational sub-query for one
nested filter map, recursing into `AddDeepFilters` on a fresh query scope. -/
def addDeepFilter (naming : Namer) (env : SchemaEnv) (db : Query)
    (fieldInfo : nestedType) (filter : FilterMap) (cache : Cache) :
    (Option Query × Option String) × Cache :=
  let cleanDB := Query.fresh
  if fieldInfo.relationType = "oneToMany" then
    let whereQuery := fieldInfo.fieldForeignKey ++ " IN (?)"
    let r := AddDeepFilters naming env cleanDB fieldInfo.fieldStructInstance [filter] cache
    ((some (db.addWhere (.raw whereQuery
        (((cleanDB.withModel fieldInfo.fieldStructInstance).withSelect "id").addWhere
          (.sub r.1.1)))), r.1.2), r.2)
  else if fieldInfo.relationType = "manyToOne" then
    let r := AddDeepFilters naming env cleanDB fieldInfo.fieldStructInstance [filter] cache
    ((some (db.addWhere (.raw "id IN (?)"
        (((cleanDB.withModel fieldInfo.fieldStructInstance).withSelect
            fieldInfo.fieldForeignKey).addWhere (.sub r.1.1)))), r.1.2), r.2)
  else if fieldInfo.relationType = "manyToMany" then
    let subWhere := fieldInfo.fieldForeignKey ++ " IN (?)"
    let r := AddDeepFilters naming env cleanDB fieldInfo.fieldStructInstance [filter] cache
    ((some (db.addWhere (.raw "id IN (?)"
        (((cleanDB.withTable fieldInfo.manyToManyTable).withSelect
            fieldInfo.destinationManyToManyForeignKey).addWhere
          (.raw subWhere
            (((cleanDB.withModel fieldInfo.fieldStructInstance).withSelect "id").addWhere
              (.sub r.1.1)))))), r.1.2), r.2)
  else
    ((none, some ("relationType '" ++ fieldInfo.relationType ++ "' unknown")), cache)
termination_by 2 * mapSize filter + 3
decreasing_by
  all_goals try simp only [filtersSize, mapSize, valSize]
  all_goals try omega
  all_goals (have hmp := one_le_mapSize ‹FilterMap›; omega)

end

/-- The WHERE condition `addDeepFilter` appends for one relational predicate,
together with the error and cache it produces. Its inputs are the relation record,
the nested filter and the cache only: the parent query is not an input, and the
recursive compilation starts from `Query.fresh`. -/
def deepFilterCond (naming : Namer) (env : SchemaEnv) (fieldInfo : nestedType)
    (filter : FilterMap) (cache : Cache) : Option Cond × Option String × Cache :=
  let cleanDB := Query.fresh
  if fieldInfo.relationType = "oneToMany" then
    let r := AddDeepFilters naming env cleanDB fieldInfo.fieldStructInstance [filter] cache
    (some (.raw (fieldInfo.fieldForeignKey ++ " IN (?)")
        (((cleanDB.withModel fieldInfo.fieldStructInstance).withSelect "id").addWhere
          (.sub r.1.1))), r.1.2, r.2)
  else if fieldInfo.relationType = "manyToOne" then
    let r := AddDeepFilters naming env cleanDB fieldInfo.fieldStructInstance [filter] cache
    (some (.raw "id IN (?)"
        (((cleanDB.withModel fieldInfo.fieldStructInstance).withSelect
            fieldInfo.fieldForeignKey).addWhere (.sub r.1.1))), r.1.2, r.2)
  else if fieldInfo.relationType = "manyToMany" then
    let subWhere := fieldInfo.fieldForeignKey ++ " IN (?)"
    let r := AddDeepFilters naming env cleanDB fieldInfo.fieldStructInstance [filter] cache
    (some (.raw "id IN (?)"
        (((cleanDB.withTable fieldInfo.manyToManyTable).withSelect
            fieldInfo.destinationManyToManyForeignKey).addWhere
          (.raw subWhere
            (((cleanDB.withModel fieldInfo.fieldStructInstance).withSelect "id").addWhere
              (.sub r.1.1))))), r.1.2, r.2)
  else
    (none, some ("relationType '" ++ fieldInfo.relationType ++ "' unknown"), cache)

/-! Concrete entities used by witnesses: a `Tag` entity with no relational fields,
and a `SimpleStruct` entity whose `Tag` field carries a `foreignKey:TagRef` tag. -/

def naming0 : Namer := ⟨fun _ n => n⟩

def tagSchema : Schema := ⟨"tags", "id", .struct "Tag", []⟩

def ssFieldTag : SchemaField := ⟨"Tag", .struct "Tag", some "TagRef", none, "simple_structs"⟩

def ssSchema : Schema := ⟨"simple_structs", "id", .struct "SimpleStruct", [ssFieldTag]⟩

def envW : SchemaEnv := fun t =>
  match t with
  | .struct "SimpleStruct" => some ssSchema
  | .struct "Tag" => some tagSchema
  | _ => none

def f0 : FilterMap := [("name", .scalar (.str "abc"))]

def fiOne : nestedType := ⟨some (.struct "Tag"), "tag_ref", "oneToMany", "", ""⟩

def fiMany : nestedType := ⟨some (.struct "Tag"), "owner_id", "manyToOne", "", ""⟩

def fiM2M : nestedType := ⟨some (.struct "Tag"), "tag_id", "manyToMany", "employee_tags", "employee_id"⟩

/-! ## Theorems -/

theorem lookupAL_insertAL_self {α : Type} (l : List (String × α)) (k : String) (v : α) :
    lookupAL (insertAL l k v) k = some v := by
  induction l with
  | nil => simp [insertAL, lookupAL]
  | cons hd tl ih =>
      obtain ⟨k', v'⟩ := hd
      by_cases h : k' = k
      · simp [insertAL, h, lookupAL]
      · simp [insertAL, h, lookupAL, ih]

/-- C7: two consecutive relationship-cache lookups for the same entity type return
structurally equal relational-field maps; the second call returns the memoized entry
stored under the type's identity (the final `false` records that the reflection
branch did not run), and leaves the cache unchanged. -/
theorem getDatabaseFieldsOfType_idempotent (naming : Namer) (s : Schema) (cache : Cache) :
    getDatabaseFieldsOfType naming s (getDatabaseFieldsOfType naming s cache).2.1
      = ((getDatabaseFieldsOfType naming s cache).1,
         (getDatabaseFieldsOfType naming s cache).2.1, false) := by
  cases h : lookupAL cache (ensureConcrete s.modelType).name with
  | some m => simp [getDatabaseFieldsOfType, h]
  | none => simp [getDatabaseFieldsOfType, h, lookupAL_insertAL_self]

/-- C4: `addDeepFilter` factors through `deepFilterCond`, whose inputs do not include
the parent query: every recursive nested compilation runs against `Query.fresh` (a
fresh session with no inherited WHERE state), and the parent's accumulating query
enters only as the base onto which the independently built condition is appended. -/
theorem addDeepFilter_fresh_scope (naming : Namer) (env : SchemaEnv) (db : Query)
    (fieldInfo : nestedType) (filter : FilterMap) (cache : Cache) :
    addDeepFilter naming env db fieldInfo filter cache
      = ((Option.map db.addWhere (deepFilterCond naming env fieldInfo filter cache).1,
          (deepFilterCond naming env fieldInfo filter cache).2.1),
         (deepFilterCond naming env fieldInfo filter cache).2.2) := by
  rw [addDeepFilter]
  unfold deepFilterCond
  split_ifs <;> rfl

/-- C1: the compiled query fragment has exactly the spec's shape for each relationship
kind. For `ToOne` (code "oneToMany") the parent gains
`<foreignKeyColumn> IN (subquery over the related model, select "id", filtered by the
recursively compiled nested filter)`; for `ToMany` (code "manyToOne") it gains
`id IN (subquery selecting <foreignKeyColumn> from the related model, filtered by the
recursively compiled nested filter)`; for `ManyToMany` it gains the double-nested
`id IN (subquery over the junction table selecting the owner-side junction column,
itself filtered by <junction FK on related> IN (subquery over the related model,
select "id", filtered by the recursively compiled nested filter))`. -/
theorem addDeepFilter_fragment_shape (naming : Namer) (env : SchemaEnv) (db : Query)
    (fieldInfo : nestedType) (filter : FilterMap) (cache : Cache) :
    (fieldInfo.relationType = "oneToMany" →
      addDeepFilter naming env db fieldInfo filter cache
        = ((some (db.addWhere (.raw (fieldInfo.fieldForeignKey ++ " IN (?)")
              (Query.mk fieldInfo.fieldStructInstance none (some "id")
                [.sub (AddDeepFilters naming env Query.fresh fieldInfo.fieldStructInstance
                        [filter] cache).1.1]))),
            (AddDeepFilters naming env Query.fresh fieldInfo.fieldStructInstance
              [filter] cache).1.2),
           (AddDeepFilters naming env Query.fresh fieldInfo.fieldStructInstance
             [filter] cache).2))
  ∧ (fieldInfo.relationType = "manyToOne" →
      addDeepFilter naming env db fieldInfo filter cache
        = ((some (db.addWhere (.raw "id IN (?)"
              (Query.mk fieldInfo.fieldStructInstance none (some fieldInfo.fieldForeignKey)
                [.sub (AddDeepFilters naming env Query.fresh fieldInfo.fieldStructInstance
                        [filter] cache).1.1]))),
            (AddDeepFilters naming env Query.fresh fieldInfo.fieldStructInstance
              [filter] cache).1.2),
           (AddDeepFilters naming env Query.fresh fieldInfo.fieldStructInstance
             [filter] cache).2))
  ∧ (fieldInfo.relationType = "manyToMany" →
      addDeepFilter naming env db fieldInfo filter cache
        = ((some (db.addWhere (.raw "id IN (?)"
              (Query.mk none (some fieldInfo.manyToManyTable)
                (some fieldInfo.destinationManyToManyForeignKey)
                [.raw (fieldInfo.fieldForeignKey ++ " IN (?)")
                  (Query.mk fieldInfo.fieldStructInstance none (some "id")
                    [.sub (AddDeepFilters naming env Query.fresh
                            fieldInfo.fieldStructInstance [filter] cache).1.1])]))),
            (AddDeepFilters naming env Query.fresh fieldInfo.fieldStructInstance
              [filter] cache).1.2),
           (AddDeepFilters naming env Query.fresh fieldInfo.fieldStructInstance
             [filter] cache).2)) := by
  refine ⟨fun h => ?_, fun h => ?_, fun h => ?_⟩ <;>
    rw [addDeepFilter] <;> simp only [h] <;> rfl

/-- Witness for C1: the three shapes at concrete relation records, a concrete nested
filter, a concrete schema environment and an empty cache. -/
theorem addDeepFilter_fragment_shape_witness :
    addDeepFilter naming0 envW Query.fresh fiOne f0 []
      = ((some (Query.fresh.addWhere (.raw ("tag_ref" ++ " IN (?)")
            (Query.mk (some (.struct "Tag")) none (some "id")
              [.sub (AddDeepFilters naming0 envW Query.fresh (some (.struct "Tag"))
                      [f0] []).1.1]))),
          (AddDeepFilters naming0 envW Query.fresh (some (.struct "Tag")) [f0] []).1.2),
         (AddDeepFilters naming0 envW Query.fresh (some (.struct "Tag")) [f0] []).2)
  ∧ addDeepFilter naming0 envW Query.fresh fiMany f0 []
      = ((some (Query.fresh.addWhere (.raw "id IN (?)"
            (Query.mk (some (.struct "Tag")) none (some "owner_id")
              [.sub (AddDeepFilters naming0 envW Query.fresh (some (.struct "Tag"))
                      [f0] []).1.1]))),
          (AddDeepFilters naming0 envW Query.fresh (some (.struct "Tag")) [f0] []).1.2),
         (AddDeepFilters naming0 envW Query.fresh (some (.struct "Tag")) [f0] []).2)
  ∧ addDeepFilter naming0 envW Query.fresh fiM2M f0 []
      = ((some (Query.fresh.addWhere (.raw "id IN (?)"
            (Query.mk none (some "employee_tags") (some "employee_id")
              [.raw ("tag_id" ++ " IN (?)")
                (Query.mk (some (.struct "Tag")) none (some "id")
                  [.sub (AddDeepFilters naming0 envW Query.fresh (some (.struct "Tag"))
                          [f0] []).1.1])]))),
          (AddDeepFilters naming0 envW Query.fresh (some (.struct "Tag")) [f0] []).1.2),
         (AddDeepFilters naming0 envW Query.fresh (some (.struct "Tag")) [f0] []).2) :=
  ⟨(addDeepFilter_fragment_shape naming0 envW Query.fresh fiOne f0 []).1 rfl,
   (addDeepFilter_fragment_shape naming0 envW Query.fresh fiMany f0 []).2.1 rfl,
   (addDeepFilter_fragment_shape naming0 envW Query.fresh fiM2M f0 []).2.2 rfl⟩

/-- C5: the classifier's case analysis, in order. (i) With a foreign-key annotation
the relation kind is the one inferred from the field's shape, and `fieldForeignKey`
is the resolved column name of the annotated key; (ii) the shape inference maps a
struct shape to "oneToMany" and a collection shape to "manyToOne"; (iii) without a
foreign-key annotation but with a many-to-many annotation the kind becomes
"manyToMany"; (iv) with neither annotation, classification fails with an error
naming the field; and (v) during bulk cache population the failure causes only the
single field to be omitted — removing a failing field from the schema's field list
does not change the reflection result, so the whole reflection never fails. -/
theorem getNestedType_classification (naming : Namer) (ofType : GoType) :
    (∀ (dbField : SchemaField) (fk : String), dbField.tagForeignKey = some fk →
      getNestedType naming dbField ofType
        = .ok { fieldStructInstance := (getInstanceAndRelationOfField dbField.fieldType).1,
                relationType := (getInstanceAndRelationOfField dbField.fieldType).2,
                fieldForeignKey := naming.columnName dbField.schemaTable fk })
  ∧ (∀ fieldType : GoType,
      ((ensureConcrete fieldType).kind = .kstruct →
        (getInstanceAndRelationOfField fieldType).2 = "oneToMany")
      ∧ ((ensureConcrete fieldType).kind = .kslice →
        (getInstanceAndRelationOfField fieldType).2 = "manyToOne"))
  ∧ (∀ (dbField : SchemaField) (m2m : String), dbField.tagForeignKey = none →
      dbField.tagMany2Many = some m2m →
      (getNestedType naming dbField ofType).isOk
      ∧ ∀ nt, getNestedType naming dbField ofType = .ok nt → nt.relationType = "manyToMany")
  ∧ (∀ dbField : SchemaField, dbField.tagForeignKey = none → dbField.tagMany2Many = none →
      getNestedType naming dbField ofType
        = .error ("no 'foreignKey:...' or 'many2many:...' found in field " ++ dbField.name))
  ∧ (∀ (table : String) (l₁ l₂ : List SchemaField) (f : SchemaField) (acc : RelMap),
      (∃ e, getNestedType naming f ofType = .error e) →
      reflectFieldList naming table ofType (l₁ ++ f :: l₂) acc
        = reflectFieldList naming table ofType (l₁ ++ l₂) acc) := by
  refine ⟨?_, ?_, ?_, ?_, ?_⟩
  · intro dbField fk h
    simp [getNestedType, h]
  · intro fieldType
    constructor <;> intro h <;>
      cases hc : ensureConcrete fieldType <;>
        simp_all [GoType.kind, getInstanceAndRelationOfField]
  · intro dbField m2m h1 h2
    constructor
    · simp [getNestedType, h1, h2, Except.isOk, Except.toBool]
    · intro nt hnt
      simp [getNestedType, h1, h2] at hnt
      simp [← hnt]
  · intro dbField h1 h2
    simp [getNestedType, h1, h2]
  · intro table l₁ l₂ f acc he
    induction l₁ generalizing acc with
    | nil =>
        obtain ⟨e, he⟩ := he
        by_cases hk : (ensureConcrete f.fieldType).kind ≠ .kstruct ∧
            (ensureConcrete f.fieldType).kind ≠ .kslice
        · simp [reflectFieldList, hk]
        · simp [reflectFieldList, hk, he]
    | cons hd tl ih =>
        simp only [List.cons_append, reflectFieldList]
        split_ifs with hk
        · exact ih acc
        · cases hg : getNestedType naming hd ofType with
          | error e => simp only [hg]; exact ih acc
          | ok nt => simp only [hg]; exact ih _

/-- Witness for C5: the conjuncts instantiated at a concrete namer, owning type and
fields — a foreign-key field classifies by shape with the resolved key column, a
many-to-many field classifies as "manyToMany", an unannotated field errors with its
name in the message, and dropping that failing field leaves reflection unchanged. -/
theorem getNestedType_classification_witness :
    getNestedType naming0 ssFieldTag (.struct "SimpleStruct")
      = .ok { fieldStructInstance := (getInstanceAndRelationOfField ssFieldTag.fieldType).1,
              relationType := (getInstanceAndRelationOfField ssFieldTag.fieldType).2,
              fieldForeignKey := naming0.columnName ssFieldTag.schemaTable "TagRef" }
  ∧ (getInstanceAndRelationOfField (.struct "Tag")).2 = "oneToMany"
  ∧ (getInstanceAndRelationOfField (.slice (.struct "Tag"))).2 = "manyToOne"
  ∧ (getNestedType naming0 ⟨"Tags", .slice (.struct "Tag"), none, some "employee_tags", "employees"⟩
      (.struct "Employee")).isOk
  ∧ getNestedType naming0 ⟨"Other", .struct "Other", none, none, "employees"⟩ (.struct "Employee")
      = .error ("no 'foreignKey:...' or 'many2many:...' found in field " ++ "Other")
  ∧ reflectFieldList naming0 "employees" (.struct "Employee")
      ([] ++ ⟨"Other", .struct "Other", none, none, "employees"⟩ :: []) []
      = reflectFieldList naming0 "employees" (.struct "Employee") ([] ++ []) [] := by
  have h := getNestedType_classification naming0 (.struct "SimpleStruct")
  have h' := getNestedType_classification naming0 (.struct "Employee")
  refine ⟨h.1 ssFieldTag "TagRef" rfl, ?_, ?_,
    (h'.2.2.1 ⟨"Tags", .slice (.struct "Tag"), none, some "employee_tags", "employees"⟩
      "employee_tags" rfl rfl).1,
    h'.2.2.2.1 ⟨"Other", .struct "Other", none, none, "employees"⟩ rfl rfl,
    h'.2.2.2.2 "employees" [] [] ⟨"Other", .struct "Other", none, none, "employees"⟩ []
      ⟨_, h'.2.2.2.1 ⟨"Other", .struct "Other", none, none, "employees"⟩ rfl rfl⟩⟩
  · exact (h.2.1 (.struct "Tag")).1 rfl
  · exact (h.2.1 (.slice (.struct "Tag"))).2 rfl

/-- C6: a field with no foreign-key annotation and a many-to-many annotation yields a
record whose `manyToManyTable` is the declared junction table, whose
`fieldForeignKey` (the junction column referencing the related entity) is the
naming-resolved related element-type name with "_id" appended, and whose
`destinationManyToManyForeignKey` (the owner-side junction column) is the
naming-resolved owning type name with "_id" appended. -/
theorem getNestedType_manyToMany_columns (naming : Namer) (dbField : SchemaField)
    (ofType : GoType) (m2m : String) (h1 : dbField.tagForeignKey = none)
    (h2 : dbField.tagMany2Many = some m2m) :
    getNestedType naming dbField ofType
      = .ok { fieldStructInstance := (getInstanceAndRelationOfField dbField.fieldType).1,
              relationType := "manyToMany",
              manyToManyTable := m2m,
              fieldForeignKey :=
                naming.columnName dbField.schemaTable
                  (ensureNotASlice dbField.fieldType).name ++ "_id",
              destinationManyToManyForeignKey :=
                naming.columnName dbField.schemaTable ofType.name ++ "_id" } := by
  simp [getNestedType, h1, h2]

/-- Witness for C6: the many-to-many columns at a concrete field (`Tags []Tag` with
`many2many:employee_tags` on an `Employee`), with the junction table, `tag_id` and
`employee_id` columns spelled out. -/
theorem getNestedType_manyToMany_columns_witness :
    getNestedType naming0 ⟨"Tags", .slice (.struct "Tag"), none, some "employee_tags", "employees"⟩
      (.struct "Employee")
      = .ok { fieldStructInstance := some (.struct "Tag"),
              relationType := "manyToMany",
              manyToManyTable := "employee_tags",
              fieldForeignKey := "Tag" ++ "_id",
              destinationManyToManyForeignKey := "Employee" ++ "_id" } := by
  have h := getNestedType_manyToMany_columns naming0
    ⟨"Tags", .slice (.struct "Tag"), none, some "employee_tags", "employees"⟩
    (.struct "Employee") "employee_tags" rfl rfl
  rw [h]
  simp [getInstanceAndRelationOfField, ensureConcrete, ensureNotASlice, GoType.name, naming0]

/-- Forget a schema's primary-key column name. -/
def stripPK (s : Schema) : Schema := { s with primaryFieldDBName := "" }

/-- Forget every schema's primary-key column name in an environment. -/
def stripPKEnv (env : SchemaEnv) : SchemaEnv := fun t => (env t).map stripPK

theorem bind_stripPKEnv (env : SchemaEnv) (T : Option GoType) :
    T.bind (stripPKEnv env) = (T.bind env).map stripPK := by
  cases T <;> rfl

theorem getDF_stripPK (naming : Namer) (s : Schema) (c : Cache) :
    getDatabaseFieldsOfType naming (stripPK s) c = getDatabaseFieldsOfType naming s c := rfl

theorem stripPK_table (s : Schema) : (stripPK s).table = s.table := rfl

/-- The compiler never consults any schema's `primaryFieldDBName`: erasing it from
every schema in the environment leaves the compilation result unchanged. -/
theorem AddDeepFilters_stripPK (naming : Namer) (env : SchemaEnv) (db : Query)
    (objectType : Option GoType) (filters : List FilterMap) (cache : Cache) :
    AddDeepFilters naming (stripPKEnv env) db objectType filters cache
      = AddDeepFilters naming env db objectType filters cache := by
  refine @AddDeepFilters.induct naming env
    (fun db T F c => AddDeepFilters naming (stripPKEnv env) db T F c
        = AddDeepFilters naming env db T F c)
    (fun sch ri db s F c => processFilters naming (stripPKEnv env) (stripPK sch) ri db s F c
        = processFilters naming env sch ri db s F c)
    (fun sch ri db s m c => processEntries naming (stripPKEnv env) (stripPK sch) ri db s m c
        = processEntries naming env sch ri db s m c)
    (fun db fi f c => addDeepFilter naming (stripPKEnv env) db fi f c
        = addDeepFilter naming env db fi f c)
    ?_ ?_ ?_ ?_ ?_ ?_ ?_ ?_ ?_ ?_ ?_ ?_ ?_ ?_ ?_ ?_ db objectType filters cache
  · intro db T F c hb
    rw [AddDeepFilters, AddDeepFilters, bind_stripPKEnv, hb]
    rfl
  · intro db T F c sch hb r e c' hpf ih
    rw [show (r : RelMap × Cache × Bool) = getDatabaseFieldsOfType naming sch c from rfl] at hpf ih
    rw [AddDeepFilters, AddDeepFilters, bind_stripPKEnv, hb]
    simp only [Option.map_some', getDF_stripPK, ih]
  · intro db T F c sch hb r db' s' c' hpf ih
    rw [show (r : RelMap × Cache × Bool) = getDatabaseFieldsOfType naming sch c from rfl] at hpf ih
    rw [AddDeepFilters, AddDeepFilters, bind_stripPKEnv, hb]
    simp only [Option.map_some', getDF_stripPK, ih]
  · intro sch ri db s c
    rw [processFilters, processFilters]
  · intro sch ri db s c m rest e c' hpe ih
    rw [processFilters, processFilters]
    simp only [ih, hpe]
  · intro sch ri db s c m rest db' s' c' hpe ih ihrest
    rw [processFilters, processFilters]
    simp only [ih, hpe, ihrest]
  · intro sch ri db s c
    rw [processEntries, processEntries]
  · intro sch ri db s c f rest nested hl
    rw [processEntries, processEntries]
    simp only [hl]
  · intro sch ri db s c f rest nested fi hl fst e c' hadf ih
    rw [processEntries, processEntries]
    simp only [hl, ih, hadf]
  · intro sch ri db s c f rest nested fi hl q c' hadf ih ihrest
    rw [processEntries, processEntries]
    simp only [hl, ih, hadf, ihrest]
  · intro sch ri db s c f rest nested fi hl c' hadf ih ihrest
    rw [processEntries, processEntries]
    simp only [hl, ih, hadf, ihrest]
  · intro sch ri db s c f rest v ih
    rw [processEntries, processEntries]
    simp only [stripPK_table, ih]
  · intro db fi f c cleanDB h ih
    rw [show (cleanDB : Query) = Query.fresh from rfl] at ih
    rw [addDeepFilter, addDeepFilter]
    simp [h, ih]
  · intro db fi f c cleanDB h1 h2 ih
    rw [show (cleanDB : Query) = Query.fresh from rfl] at ih
    rw [addDeepFilter, addDeepFilter]
    simp [h1, h2, ih]
  · intro db fi f c cleanDB h1 h2 h3 ih
    rw [show (cleanDB : Query) = Query.fresh from rfl] at ih
    rw [addDeepFilter, addDeepFilter]
    simp [h1, h2, h3, ih]
  · intro db fi f c h1 h2 h3
    rw [addDeepFilter, addDeepFilter]
    simp [h1, h2, h3]


/-- C9: every compiled relational sub-query hard-codes the primary-key column name
"id" on both sides of the hop — the "oneToMany" branch selects the literal column
"id" from the related model, the "manyToOne" and "manyToMany" branches constrain the
parent's literal column "id" — for every schema environment whatsoever; and the
compilation result is invariant under erasing every schema's actual primary-key
column name, so the entities' real primary-key names are never consulted. -/
theorem primary_key_literal_id :
    (∀ (naming : Namer) (env : SchemaEnv) (db : Query) (objectType : Option GoType)
        (filters : List FilterMap) (cache : Cache),
      AddDeepFilters naming (stripPKEnv env) db objectType filters cache
        = AddDeepFilters naming env db objectType filters cache)
  ∧ (∀ (naming : Namer) (env : SchemaEnv) (db : Query) (fieldInfo : nestedType)
        (filter : FilterMap) (cache : Cache),
      (fieldInfo.relationType = "oneToMany" →
        (addDeepFilter naming env db fieldInfo filter cache).1.1
          = some (db.addWhere (.raw (fieldInfo.fieldForeignKey ++ " IN (?)")
              (Query.mk fieldInfo.fieldStructInstance none (some "id")
                [.sub (AddDeepFilters naming env Query.fresh fieldInfo.fieldStructInstance
                        [filter] cache).1.1]))))
      ∧ (fieldInfo.relationType = "manyToOne" →
          (addDeepFilter naming env db fieldInfo filter cache).1.1
            = some (db.addWhere (.raw "id IN (?)"
                (Query.mk fieldInfo.fieldStructInstance none
                  (some fieldInfo.fieldForeignKey)
                  [.sub (AddDeepFilters naming env Query.fresh fieldInfo.fieldStructInstance
                          [filter] cache).1.1]))))
      ∧ (fieldInfo.relationType = "manyToMany" →
          (addDeepFilter naming env db fieldInfo filter cache).1.1
            = some (db.addWhere (.raw "id IN (?)"
                (Query.mk none (some fieldInfo.manyToManyTable)
                  (some fieldInfo.destinationManyToManyForeignKey)
                  [.raw (fieldInfo.fieldForeignKey ++ " IN (?)")
                    (Query.mk fieldInfo.fieldStructInstance none (some "id")
                      [.sub (AddDeepFilters naming env Query.fresh
                              fieldInfo.fieldStructInstance [filter] cache).1.1])]))))) := by
  refine ⟨AddDeepFilters_stripPK, fun naming env db fieldInfo filter cache => ?_⟩
  refine ⟨fun h => ?_, fun h => ?_, fun h => ?_⟩ <;>
    rw [addDeepFilter] <;> simp only [h] <;> rfl

/-- Witness for C9: the invariance and the three literal-"id" shapes at concrete
inputs (a schema environment whose schemas declare "id" as primary key, concrete
relation records, a concrete nested filter, an empty cache). -/
theorem primary_key_literal_id_witness :
    AddDeepFilters naming0 (stripPKEnv envW) Query.fresh (some (.struct "SimpleStruct"))
        [[("Tag", FilterVal.fmap f0)]] []
      = AddDeepFilters naming0 envW Query.fresh (some (.struct "SimpleStruct"))
          [[("Tag", FilterVal.fmap f0)]] []
  ∧ (addDeepFilter naming0 envW Query.fresh fiOne f0 []).1.1
      = some (Query.fresh.addWhere (.raw ("tag_ref" ++ " IN (?)")
          (Query.mk (some (.struct "Tag")) none (some "id")
            [.sub (AddDeepFilters naming0 envW Query.fresh (some (.struct "Tag"))
                    [f0] []).1.1])))
  ∧ (addDeepFilter naming0 envW Query.fresh fiMany f0 []).1.1
      = some (Query.fresh.addWhere (.raw "id IN (?)"
          (Query.mk (some (.struct "Tag")) none (some "owner_id")
            [.sub (AddDeepFilters naming0 envW Query.fresh (some (.struct "Tag"))
                    [f0] []).1.1])))
  ∧ (addDeepFilter naming0 envW Query.fresh fiM2M f0 []).1.1
      = some (Query.fresh.addWhere (.raw "id IN (?)"
          (Query.mk none (some "employee_tags") (some "employee_id")
            [.raw ("tag_id" ++ " IN (?)")
              (Query.mk (some (.struct "Tag")) none (some "id")
                [.sub (AddDeepFilters naming0 envW Query.fresh (some (.struct "Tag"))
                        [f0] []).1.1])]))) :=
  ⟨primary_key_literal_id.1 naming0 envW Query.fresh (some (.struct "SimpleStruct"))
      [[("Tag", FilterVal.fmap f0)]] [],
   (primary_key_literal_id.2 naming0 envW Query.fresh fiOne f0 []).1 rfl,
   (primary_key_literal_id.2 naming0 envW Query.fresh fiMany f0 []).2.1 rfl,
   (primary_key_literal_id.2 naming0 envW Query.fresh fiM2M f0 []).2.2 rfl⟩


theorem processEntries_nil (naming : Namer) (env : SchemaEnv) (schemaInfo : Schema)
    (relInfo : RelMap) (db : Query) (s : SimpleMap) (cache : Cache) :
    processEntries naming env schemaInfo relInfo db s [] cache = (.ok (db, s), cache) := by
  rw [processEntries]

/-- Splitting one filter map into two consecutive maps is invisible to the entry
loop: processing `m₁ ++ m₂` is processing `m₁`, then (unless it errored) `m₂` from
the resulting state. -/
theorem processEntries_append (naming : Namer) (env : SchemaEnv) (schemaInfo : Schema)
    (relInfo : RelMap) (m₁ m₂ : FilterMap) :
    ∀ (db : Query) (s : SimpleMap) (cache : Cache),
    processEntries naming env schemaInfo relInfo db s (m₁ ++ m₂) cache
      = match processEntries naming env schemaInfo relInfo db s m₁ cache with
        | (.error e, c') => (.error e, c')
        | (.ok (db', s'), c') => processEntries naming env schemaInfo relInfo db' s' m₂ c' := by
  induction m₁ with
  | nil =>
      intro db s cache
      rw [List.nil_append, processEntries_nil]
  | cons hd tl ih =>
      intro db s cache
      obtain ⟨f, v⟩ := hd
      cases v with
      | scalar sv =>
          simp only [List.cons_append, processEntries]
          exact ih _ _ _
      | fmap nested =>
          simp only [List.cons_append, processEntries]
          cases hl : lookupAL relInfo f with
          | none => rfl
          | some fi =>
              rcases hadf : addDeepFilter naming env db fi nested cache with ⟨⟨oq, oe⟩, c'⟩
              cases oe with
              | some e => simp only [hadf]
              | none =>
                  cases oq with
                  | some q => simp only [hadf]; exact ih _ _ _
                  | none => simp only [hadf]; exact ih _ _ _

theorem processFilters_nil (naming : Namer) (env : SchemaEnv) (schemaInfo : Schema)
    (relInfo : RelMap) (db : Query) (s : SimpleMap) (cache : Cache) :
    processFilters naming env schemaInfo relInfo db s [] cache = (.ok (db, s), cache) := by
  rw [processFilters]

/-- The filters loop over a concatenation is the loop over the first list, then
(unless it errored) the loop over the second from the resulting state. -/
theorem processFilters_append (naming : Namer) (env : SchemaEnv) (schemaInfo : Schema)
    (relInfo : RelMap) (F₁ F₂ : List FilterMap) :
    ∀ (db : Query) (s : SimpleMap) (cache : Cache),
    processFilters naming env schemaInfo relInfo db s (F₁ ++ F₂) cache
      = match processFilters naming env schemaInfo relInfo db s F₁ cache with
        | (.error e, c') => (.error e, c')
        | (.ok (db', s'), c') => processFilters naming env schemaInfo relInfo db' s' F₂ c' := by
  induction F₁ with
  | nil =>
      intro db s cache
      rw [List.nil_append, processFilters_nil]
  | cons hd tl ih =>
      intro db s cache
      simp only [List.cons_append, processFilters]
      rcases hpe : processEntries naming env schemaInfo relInfo db s hd cache with ⟨r, c'⟩
      cases r with
      | error e => simp only []
      | ok p => exact ih _ _ _

/-- Two consecutive filter maps are processed exactly like their concatenation. -/
theorem processFilters_pair (naming : Namer) (env : SchemaEnv) (schemaInfo : Schema)
    (relInfo : RelMap) (m₁ m₂ : FilterMap) (db : Query) (s : SimpleMap) (cache : Cache) :
    processFilters naming env schemaInfo relInfo db s [m₁, m₂] cache
      = processFilters naming env schemaInfo relInfo db s [m₁ ++ m₂] cache := by
  simp only [processFilters]
  rw [processEntries_append]
  rcases h₁ : processEntries naming env schemaInfo relInfo db s m₁ cache with ⟨r₁, c₁⟩
  cases r₁ with
  | error e => rfl
  | ok p =>
      rcases h₂ : processEntries naming env schemaInfo relInfo p.1 p.2 m₂ c₁ with ⟨r₂, c₂⟩
      cases r₂ with
      | error e => simp only [h₂]
      | ok q => simp only [h₂]

/-- C3: the compilation result is either a query with no error or a nil query with
an error — a partially built query is never returned alongside an error — and each
relational branch of `addDeepFilter` hands the error of its recursive nested
compilation unchanged to its caller, so an error at any recursion depth reaches the
top-level caller, which then returns a nil query. -/
theorem error_propagation :
    (∀ (naming : Namer) (env : SchemaEnv) (db : Query) (objectType : Option GoType)
        (filters : List FilterMap) (cache : Cache),
      (∃ q c', AddDeepFilters naming env db objectType filters cache = ((some q, none), c'))
      ∨ (∃ e c', AddDeepFilters naming env db objectType filters cache = ((none, some e), c')))
  ∧ (∀ (naming : Namer) (env : SchemaEnv) (db : Query) (fieldInfo : nestedType)
        (filter : FilterMap) (cache : Cache),
      fieldInfo.relationType = "oneToMany" ∨ fieldInfo.relationType = "manyToOne" ∨
        fieldInfo.relationType = "manyToMany" →
      (addDeepFilter naming env db fieldInfo filter cache).1.2
        = (AddDeepFilters naming env Query.fresh fieldInfo.fieldStructInstance
            [filter] cache).1.2) := by
  constructor
  · intro naming env db objectType filters cache
    cases hb : objectType.bind env with
    | none => exact Or.inr ⟨"unsupported data type", cache, by rw [AddDeepFilters, hb]⟩
    | some sch =>
        rcases hpf : processFilters naming env sch (getDatabaseFieldsOfType naming sch cache).1
            db [] filters (getDatabaseFieldsOfType naming sch cache).2.1 with ⟨r, c'⟩
        cases r with
        | error e =>
            exact Or.inr ⟨e, c', by rw [AddDeepFilters, hb]; simp only [hpf]⟩
        | ok p =>
            exact Or.inl ⟨p.1.addWhere (.simple p.2), c', by rw [AddDeepFilters, hb]; simp only [hpf]⟩
  · intro naming env db fieldInfo filter cache h
    rcases h with h | h | h <;> rw [addDeepFilter] <;> simp only [h] <;> rfl

/-- Witness for C3: the error of the recursive nested compilation surfaces unchanged
from `addDeepFilter` at a concrete relation record and nested filter. -/
theorem error_propagation_witness :
    (addDeepFilter naming0 envW Query.fresh fiOne f0 []).1.2
      = (AddDeepFilters naming0 envW Query.fresh (some (.struct "Tag")) [f0] []).1.2 :=
  error_propagation.2 naming0 envW Query.fresh fiOne f0 [] (Or.inl rfl)

/-- C8: supplying two separate filter maps in one call compiles to exactly the same
query as supplying one map containing both key sets: filter maps combine
conjunctively (each just adds further WHERE conditions), never disjunctively. -/
theorem addDeepFilters_and_composition (naming : Namer) (env : SchemaEnv) (db : Query)
    (objectType : Option GoType) (m₁ m₂ : FilterMap) (cache : Cache) :
    AddDeepFilters naming env db objectType [m₁, m₂] cache
      = AddDeepFilters naming env db objectType [m₁ ++ m₂] cache := by
  rw [AddDeepFilters, AddDeepFilters]
  cases hb : objectType.bind env with
  | none => rfl
  | some sch => simp only [hb, processFilters_pair]

/-- C10: Go map assignment overwrites — inserting under the same key twice keeps only
the later value — so when two supplied filter maps bind the same scalar key, the
compiled query is the one obtained from the later binding alone: the column is
constrained to the later value only, not to the conjunction of both. -/
theorem duplicate_scalar_key_overwrite :
    (∀ {α : Type} (s : List (String × α)) (k : String) (v₁ v₂ : α),
      insertAL (insertAL s k v₁) k v₂ = insertAL s k v₂)
  ∧ (∀ (naming : Namer) (env : SchemaEnv) (db : Query) (objectType : Option GoType)
      (k : String) (v₁ v₂ : Scalar) (cache : Cache),
      AddDeepFilters naming env db objectType [[(k, .scalar v₁)], [(k, .scalar v₂)]] cache
        = AddDeepFilters naming env db objectType [[(k, .scalar v₂)]] cache) := by
  have hins : ∀ {α : Type} (s : List (String × α)) (k : String) (v₁ v₂ : α),
      insertAL (insertAL s k v₁) k v₂ = insertAL s k v₂ := by
    intro α s k v₁ v₂
    induction s with
    | nil => simp [insertAL]
    | cons hd tl ih =>
        obtain ⟨k', v'⟩ := hd
        by_cases h : k' = k
        · simp [insertAL, h]
        · simp [insertAL, h, ih]
  refine ⟨hins, ?_⟩
  intro naming env db objectType k v₁ v₂ cache
  rw [AddDeepFilters, AddDeepFilters]
  cases hb : objectType.bind env with
  | none => rfl
  | some sch =>
      simp only [hb, processFilters, processEntries, hins]

/-! Concrete entity for the unknown-field analysis: an `A` entity with no relational
fields, so every nested-map filter key is unknown. -/

def schemaA : Schema := ⟨"as", "id", .struct "A", []⟩

def envA : SchemaEnv := fun t =>
  match t with
  | .struct "A" => some schemaA
  | _ => none

def cexMap : FilterMap := [("x", .fmap []), ("y", .fmap [])]

/-- Counterexample to C2 as stated: in a call whose filter map binds both "x" and
"y" to nested maps and neither is a known relational field, the call does return a
nil query and an error, but the error message names only the first key processed
("x") and does not contain "y" — even though "y" also satisfies the claim's
premise. -/
theorem unknown_field_rejection_cex :
    ("y", FilterVal.fmap []) ∈ cexMap
  ∧ lookupAL (getDatabaseFieldsOfType naming0 schemaA []).1 "y" = none
  ∧ AddDeepFilters naming0 envA Query.fresh (some (.struct "A")) [cexMap] []
      = ((none, some "field 'x' does not exist"), [("A", [])])
  ∧ ¬ List.IsInfix "y".data "field 'x' does not exist".data := by
  refine ⟨List.Mem.tail _ (List.Mem.head _), ?_, ?_, ?_⟩
  · simp [getDatabaseFieldsOfType, schemaA, reflectFieldList, lookupAL, ensureConcrete,
      GoType.name]
  · simp [AddDeepFilters, processFilters, processEntries, envA, schemaA, cexMap,
      getDatabaseFieldsOfType, reflectFieldList, lookupAL, insertAL, ensureConcrete,
      GoType.name]
  · decide

/-- An entry that binds an unknown key to a nested map forces the entry loop to
return an error (the loop either fails earlier or at that entry). -/
theorem processEntries_error_of_unknown (naming : Namer) (env : SchemaEnv)
    (schemaInfo : Schema) (relInfo : RelMap) (k : String) (nm : FilterMap)
    (hk : lookupAL relInfo k = none) :
    ∀ (m : FilterMap), (k, FilterVal.fmap nm) ∈ m →
    ∀ (db : Query) (s : SimpleMap) (cache : Cache),
    ∃ e c', processEntries naming env schemaInfo relInfo db s m cache = (.error e, c') := by
  intro m
  induction m with
  | nil => intro hmem; simp at hmem
  | cons hd tl ih =>
      intro hmem db s cache
      obtain ⟨f, v⟩ := hd
      rcases List.mem_cons.mp hmem with heq | hmem'
      · cases heq
        rw [processEntries]
        simp only [hk]
        exact ⟨_, _, rfl⟩
      · cases v with
        | scalar sv =>
            rw [processEntries]
            exact ih hmem' _ _ _
        | fmap nested =>
            rw [processEntries]
            cases hl : lookupAL relInfo f with
            | none => exact ⟨_, _, rfl⟩
            | some fi =>
                rcases hadf : addDeepFilter naming env db fi nested cache with ⟨⟨oq, oe⟩, c'⟩
                cases oe with
                | some e => exact ⟨e, c', by simp only [hadf]⟩
                | none =>
                    cases oq with
                    | some q =>
                        obtain ⟨e, c'', hpe⟩ := ih hmem' q s c'
                        exact ⟨e, c'', by simp only [hadf, hpe]⟩
                    | none =>
                        obtain ⟨e, c'', hpe⟩ := ih hmem' db s c'
                        exact ⟨e, c'', by simp only [hadf, hpe]⟩

/-- A supplied filter map with an unknown nested-map key forces the filters loop to
return an error. -/
theorem processFilters_error_of_unknown (naming : Namer) (env : SchemaEnv)
    (schemaInfo : Schema) (relInfo : RelMap) (k : String) (nm M : FilterMap)
    (hk : lookupAL relInfo k = none) (hentry : (k, FilterVal.fmap nm) ∈ M) :
    ∀ (F : List FilterMap), M ∈ F →
    ∀ (db : Query) (s : SimpleMap) (cache : Cache),
    ∃ e c', processFilters naming env schemaInfo relInfo db s F cache = (.error e, c') := by
  intro F
  induction F with
  | nil => intro hmem; simp at hmem
  | cons hd tl ih =>
      intro hmem db s cache
      rcases List.mem_cons.mp hmem with heq | hmem'
      · cases heq
        rw [processFilters]
        obtain ⟨e, c', hpe⟩ :=
          processEntries_error_of_unknown naming env schemaInfo relInfo k nm hk M hentry
            db s cache
        exact ⟨e, c', by simp only [hpe]⟩
      · rw [processFilters]
        rcases hpe : processEntries naming env schemaInfo relInfo db s hd cache with ⟨r, c'⟩
        cases r with
        | error e => exact ⟨e, c', rfl⟩
        | ok p =>
            obtain ⟨e, c'', hpf⟩ := ih hmem' p.1 p.2 c'
            exact ⟨e, c'', by simp only [hpf]⟩

/-- C2 (amended): a nested-map binding under a key `k` with no entry in the
discovered relational-fields map makes `AddDeepFilters` return a nil query together
with an error; the error message names the first failing field in processing order,
so it contains `k` whenever every entry processed before `k`'s entry succeeds. -/
theorem unknown_field_rejection :
    (∀ (naming : Namer) (env : SchemaEnv) (db : Query) (objectType : Option GoType)
        (filters : List FilterMap) (cache : Cache) (sch : Schema) (k : String)
        (nm M : FilterMap),
      objectType.bind env = some sch →
      (k, FilterVal.fmap nm) ∈ M → M ∈ filters →
      lookupAL (getDatabaseFieldsOfType naming sch cache).1 k = none →
      ∃ e c', AddDeepFilters naming env db objectType filters cache = ((none, some e), c'))
  ∧ (∀ (naming : Namer) (env : SchemaEnv) (db : Query) (objectType : Option GoType)
        (cache : Cache) (sch : Schema) (k : String) (nm M₁ M₂ : FilterMap)
        (F₁ F₂ : List FilterMap),
      objectType.bind env = some sch →
      lookupAL (getDatabaseFieldsOfType naming sch cache).1 k = none →
      ∀ (db₁ : Query) (s₁ : SimpleMap) (c₁ : Cache),
        processFilters naming env sch (getDatabaseFieldsOfType naming sch cache).1 db []
          F₁ (getDatabaseFieldsOfType naming sch cache).2.1 = (.ok (db₁, s₁), c₁) →
      ∀ (db₂ : Query) (s₂ : SimpleMap) (c₂ : Cache),
        processEntries naming env sch (getDatabaseFieldsOfType naming sch cache).1 db₁ s₁
          M₁ c₁ = (.ok (db₂, s₂), c₂) →
      AddDeepFilters naming env db objectType
          (F₁ ++ (M₁ ++ (k, FilterVal.fmap nm) :: M₂) :: F₂) cache
        = ((none, some ("field '" ++ k ++ "' does not exist")), c₂)) := by
  constructor
  · intro naming env db objectType filters cache sch k nm M hb hentry hmem hk
    obtain ⟨e, c', hpf⟩ :=
      processFilters_error_of_unknown naming env sch
        (getDatabaseFieldsOfType naming sch cache).1 k nm M hk hentry filters hmem
        db [] (getDatabaseFieldsOfType naming sch cache).2.1
    exact ⟨e, c', by rw [AddDeepFilters, hb]; simp only [hpf]⟩
  · intro naming env db objectType cache sch k nm M₁ M₂ F₁ F₂ hb hk db₁ s₁ c₁ hpf
      db₂ s₂ c₂ hpe
    rw [AddDeepFilters, hb]
    simp only [processFilters_append, hpf, processFilters, processEntries_append, hpe,
      processEntries, hk]

/-- Witness for C2 (amended): at a concrete call with a single unknown nested key
"x" (empty prefixes), the first conjunct yields a nil query with an error and the
second yields exactly the message naming "x". -/
theorem unknown_field_rejection_witness :
    (∃ e c', AddDeepFilters naming0 envA Query.fresh (some (.struct "A")) [cexMap] []
        = ((none, some e), c'))
  ∧ AddDeepFilters naming0 envA Query.fresh (some (.struct "A"))
        ([] ++ ([] ++ ("x", FilterVal.fmap []) :: []) :: []) []
      = ((none, some ("field '" ++ "x" ++ "' does not exist")), [("A", [])]) := by
  constructor
  · exact unknown_field_rejection.1 naming0 envA Query.fresh (some (.struct "A"))
      [cexMap] [] schemaA "x" [] cexMap rfl (List.Mem.head _) (List.Mem.head _) rfl
  · exact unknown_field_rejection.2 naming0 envA Query.fresh (some (.struct "A"))
      [] schemaA "x" [] [] [] [] [] rfl rfl Query.fresh [] [("A", [])]
      (processFilters_nil _ _ _ _ _ _ _) Query.fresh [] [("A", [])]
      (processEntries_nil _ _ _ _ _ _ _)

end DeepGorm
